import Mathlib

/-!
Shallow embedding of the wallet-connection persistence and auto-reconnect
logic of `src/01-wallet-ops/src/main.ts`.

The persisted localStorage slot is modelled as `Option SlotText`: `none` is an
empty slot; `some .malformed` is slot text that `JSON.parse` rejects (an empty
string, which the source's truthiness guard also treats as absent, is subsumed
here since both paths return `null`); `some (.json v)` is slot text that parses
to the JSON value `v`.  `JSON.stringify` of the record object written by
`saveWalletConnection` always produces text of the second kind, with `v` the
object's JSON value.  JSON numbers are restricted to integers: the program only
ever writes the integer `accountIndex`, and every claim is about integers.
-/

namespace WalletOps

/-- A JSON value, as produced by `JSON.parse`.  In a `jobj`, a duplicated key
is resolved to its last occurrence, as `JSON.parse` does. -/
inductive JValue where
  | jnull
  | jbool (b : Bool)
  | jnum (n : Int)
  | jstr (s : String)
  | jarr (elems : List JValue)
  | jobj (fields : List (String × JValue))

/-- Last-wins field lookup in a JSON object's field list. -/
def lookupField (k : String) : List (String × JValue) → Option JValue
  | [] => none
  | (k₁, v) :: rest =>
    match lookupField k rest with
    | some r => some r
    | none => if k₁ = k then some v else none

/-- JavaScript property read `v[k]`: `none` models `undefined` (a missing
field, or any property access on a non-object JSON value). -/
def JValue.getField (v : JValue) (k : String) : Option JValue :=
  match v with
  | .jobj fields => lookupField k fields
  | _ => none

/-- JavaScript truthiness of a parsed JSON value. -/
def JValue.truthy : JValue → Bool
  | .jnull => false
  | .jbool b => b
  | .jnum n => n != 0
  | .jstr s => s != ""
  | .jarr _ => true
  | .jobj _ => true

/-- JavaScript strict equality `s === v` between a known string `s` and a
possibly-`undefined` JSON value: true exactly when `v` is that string. -/
def strictEqStr (s : String) (v : Option JValue) : Bool :=
  match v with
  | some (.jstr t) => s = t
  | _ => false

/-- JavaScript strict equality `n === v` between a known integer `n` and a
possibly-`undefined` JSON value: true exactly when `v` is that number. -/
def strictEqNum (n : Int) (v : Option JValue) : Bool :=
  match v with
  | some (.jnum m) => n = m
  | _ => false

/-- The content of the persisted slot, when non-empty. -/
inductive SlotText where
  /-- Text that `JSON.parse` throws on. -/
  | malformed
  /-- Text that parses to the JSON value `v`. -/
  | json (v : JValue)

/-- The `StoredWalletConnection` interface of the source (`main.ts`, lines
31-35).  `accountIndex` is a JavaScript number; the claims only involve
integer values, so it is an `Int` (negative values are representable, as the
store performs no validation). -/
structure StoredWalletConnection where
  walletName : String
  accountAddress : String
  accountIndex : Int
deriving DecidableEq

/-- The JSON value of the `connectionData` object literal built by
`saveWalletConnection` (so `JSON.stringify` of that object is text parsing
back to this value). -/
def encodeStored (r : StoredWalletConnection) : JValue :=
  .jobj [("walletName", .jstr r.walletName),
         ("accountAddress", .jstr r.accountAddress),
         ("accountIndex", .jnum r.accountIndex)]

/-- Structural validity of a parsed slot value as a `StoredWalletConnection`:
all three fields present with the right types.  (The source never performs
this check; it is the spec's notion of a structurally valid record.) -/
def decodeStored (v : JValue) : Option StoredWalletConnection :=
  match v.getField "walletName", v.getField "accountAddress",
        v.getField "accountIndex" with
  | some (.jstr n), some (.jstr a), some (.jnum i) => some ⟨n, a, i⟩
  | _, _, _ => none

/-- `saveWalletConnection` (`main.ts`, lines 53-66): builds the
`connectionData` record and overwrites the slot with its serialization.  The
`try`/`catch` around `setItem` only swallows a storage failure; the slot write
itself is modelled as succeeding. -/
def saveWalletConnection (walletName accountAddress : String)
    (accountIndex : Int) (_st : Option SlotText) : Option SlotText :=
  some (.json (encodeStored ⟨walletName, accountAddress, accountIndex⟩))

/-- `loadWalletConnection` (`main.ts`, lines 77-89): reads the slot, returns
`null` (`none`) when it is empty; `JSON.parse` failure is caught and yields
`null`; parsed `null` also yields `null` because the `console.log` line
dereferences `connectionData.walletName`, which throws on `null` and is
caught.  Any other parsed value — the source casts it to
`StoredWalletConnection` without validation — is returned as is. -/
def loadWalletConnection : Option SlotText → Option JValue
  | none => none
  | some .malformed => none
  | some (.json .jnull) => none
  | some (.json v) => some v

/-- `clearWalletConnection` (`main.ts`, lines 99-106): removes the slot (the
`try`/`catch` only swallows a storage failure). -/
def clearWalletConnection (_st : Option SlotText) : Option SlotText :=
  none

/-- Abbreviation for a slot holding a saved record. -/
def storedSlot (r : StoredWalletConnection) : Option SlotText :=
  some (.json (encodeStored r))

example : loadWalletConnection (storedSlot ⟨"W", "0xabc", 2⟩)
    = some (encodeStored ⟨"W", "0xabc", 2⟩) := rfl

example : decodeStored (encodeStored ⟨"W", "0xabc", 2⟩)
    = some ⟨"W", "0xabc", 2⟩ := rfl

example : loadWalletConnection (some (.json (.jobj []))) = some (.jobj []) := rfl

/-- A wallet account (`account.address`, `account.publicKey`). -/
structure Account where
  address : String
  publicKey : String
deriving DecidableEq

/-- Outcome of awaiting a wallet's connect capability.  `rejects` models the
`await ... connect(...)` expression throwing or rejecting (this includes a
missing `standard:connect` feature, where accessing `.connect` on `undefined`
throws).  `resolves accountsAfter` models the call resolving, with
`accountsAfter` the wallet's `accounts` property as read after the call
(`none` models `undefined`). -/
inductive ConnectOutcome where
  | rejects
  | resolves (accountsAfter : Option (List Account))
deriving DecidableEq

/-- A wallet handle from the wallet registry, with its externally determined
behaviour: `silentConnect` is the outcome of `connect(\x7b silent: true \x7d)`,
`interactiveConnect` the outcome of a user-initiated `connect()`, and
`disconnectSucceeds` whether `disconnect()` resolves. -/
structure Wallet where
  name : String
  silentConnect : ConnectOutcome
  interactiveConnect : ConnectOutcome
  disconnectSucceeds : Bool
deriving DecidableEq

/-- Result of `autoConnectWallet`, instrumented for verification: `success` is
the returned boolean, `store` the slot after the call, `connectCalls` the
wallet handles whose connect capability was invoked (in order), and
`accountReads` the indices at which the chosen wallet's account array was
indexed. -/
structure ACResult where
  success : Bool
  store : Option SlotText
  connectCalls : List Wallet
  accountReads : List Int

/-- JavaScript array indexing `l[i]` with an integer index: `undefined`
(`none`) when `i` is negative (the in-bounds guard in the source rules out
`i ≥ l.length` before any read). -/
def listGetInt (l : List Account) (i : Int) : Option Account :=
  if 0 ≤ i then l[i.toNat]? else none

/-- `autoConnectWallet` (`main.ts`, lines 125-159).  The stored value is the
unvalidated result of `loadWalletConnection`, so its fields are read with
JavaScript property access and strict equality.  The relational guard
`wallet.accounts.length > storedConnection.accountIndex` is modelled for a
number-typed `accountIndex` field (the type the source's cast declares); a
missing or non-number field makes the guard false, as it does in JavaScript
for `undefined` and non-numeric strings (numeric-string coercion is not
modelled — no claim involves it).  A thrown `TypeError` from
`wallet.accounts[i].address` at a negative `i` is caught by the surrounding
`catch`, which clears the store and returns false, the same as the
else-branch it lands in here. -/
def autoConnectWallet (availableWallets : List Wallet)
    (st : Option SlotText) : ACResult :=
  match loadWalletConnection st with
  | none => ⟨false, st, [], []⟩
  | some storedConnection =>
    if !storedConnection.truthy then ⟨false, st, [], []⟩
    else
      match availableWallets.find?
          (fun w => strictEqStr w.name (storedConnection.getField "walletName")) with
      | none => ⟨false, clearWalletConnection st, [], []⟩
      | some wallet =>
        match wallet.silentConnect with
        | .rejects => ⟨false, clearWalletConnection st, [wallet], []⟩
        | .resolves accountsAfter =>
          match accountsAfter with
          | none => ⟨false, clearWalletConnection st, [wallet], []⟩
          | some accs =>
            match storedConnection.getField "accountIndex" with
            | some (.jnum idx) =>
              if (accs.length : Int) > idx then
                match listGetInt accs idx with
                | some account =>
                  if strictEqStr account.address
                      (storedConnection.getField "accountAddress") then
                    ⟨true, st, [wallet], [idx]⟩
                  else
                    ⟨false, clearWalletConnection st, [wallet], [idx]⟩
                | none => ⟨false, clearWalletConnection st, [wallet], [idx]⟩
              else ⟨false, clearWalletConnection st, [wallet], []⟩
            | _ => ⟨false, clearWalletConnection st, [wallet], []⟩

/-- The connect-button click listener of `displaySuiWallets` (`main.ts`,
lines 301-328): awaits the wallet's interactive connect; on rejection the
error is logged and nothing else happens; on success, if the wallet's account
list is non-empty its first account is saved at index 0, otherwise no write
occurs.  (The subsequent `displaySuiWallets()` re-render does not touch the
slot.)  Returns the slot after the handler runs. -/
def connectButtonHandler (wallet : Wallet) (st : Option SlotText) :
    Option SlotText :=
  match wallet.interactiveConnect with
  | .rejects => st
  | .resolves accountsAfter =>
    match accountsAfter with
    | some (defaultAccount :: _) =>
      saveWalletConnection wallet.name defaultAccount.address 0 st
    | some [] => st
    | none => st

/-- The disconnect-button click listener of `displaySuiWallets` (`main.ts`,
lines 331-352): awaits the wallet's disconnect; on success the slot is
cleared; on rejection the error is logged and the slot is untouched. -/
def disconnectButtonHandler (wallet : Wallet) (st : Option SlotText) :
    Option SlotText :=
  if wallet.disconnectSucceeds then clearWalletConnection st else st

/-- The per-option selection decision of `displayAccounts` (`main.ts`, lines
399-408): for the option at position `index` of the wallet named
`walletName`, whether `option.selected` is set.  The loaded value is checked
for truthiness (`storedConnection &&` and `!storedConnection`) and its fields
are compared with strict equality, exactly as in the source. -/
def accountOptionSelected (walletName : String) (index : Nat)
    (st : Option SlotText) : Bool :=
  match loadWalletConnection st with
  | none => index = 0
  | some storedConnection =>
    if storedConnection.truthy
        && strictEqStr walletName (storedConnection.getField "walletName")
        && strictEqNum (index : Int) (storedConnection.getField "accountIndex") then
      true
    else if index = 0 && !storedConnection.truthy then
      true
    else
      false

/-! ### Helper lemmas -/

/-- `List.find?` returns the element at the first position satisfying the
predicate. -/
theorem find_eq_of_first_match {α : Type} (p : α → Bool) :
    ∀ (l : List α) (i : Nat) (hi : i < l.length),
      (∀ j (hj : j < i), p (l.get ⟨j, Nat.lt_trans hj hi⟩) = false) →
      p (l.get ⟨i, hi⟩) = true →
      l.find? p = some (l.get ⟨i, hi⟩) := by
  intro l
  induction l with
  | nil => intro i hi; exact absurd hi (Nat.not_lt_zero i)
  | cons a t ih =>
    intro i hi hfirst hp
    cases i with
    | zero =>
      have ha : p a = true := hp
      simp [List.find?_cons_of_pos _ ha]
    | succ n =>
      have ha : p a = false := hfirst 0 (Nat.succ_pos n)
      have hn : n < t.length := Nat.lt_of_succ_lt_succ hi
      have hrec := ih n hn
        (fun j hj => hfirst (j + 1) (Nat.succ_lt_succ hj)) hp
      rw [List.find?_cons_of_neg _ (by simp [ha])]
      exact hrec

/-- The stored-record load inside `autoConnectWallet` succeeds on a slot
holding a saved record. -/
theorem loadWalletConnection_storedSlot (r : StoredWalletConnection) :
    loadWalletConnection (storedSlot r) = some (encodeStored r) := rfl

/-- A saved record's JSON object is truthy. -/
theorem truthy_encodeStored (r : StoredWalletConnection) :
    (encodeStored r).truthy = true := rfl

/-- Reading `walletName` from a saved record's JSON object. -/
theorem getField_walletName (r : StoredWalletConnection) :
    (encodeStored r).getField "walletName" = some (.jstr r.walletName) := rfl

/-- Reading `accountAddress` from a saved record's JSON object. -/
theorem getField_accountAddress (r : StoredWalletConnection) :
    (encodeStored r).getField "accountAddress" = some (.jstr r.accountAddress) := rfl

/-- Reading `accountIndex` from a saved record's JSON object. -/
theorem getField_accountIndex (r : StoredWalletConnection) :
    (encodeStored r).getField "accountIndex" = some (.jnum r.accountIndex) := rfl

/-- The wallet-scan predicate of `autoConnectWallet`, on a saved record,
reduced to a name comparison. -/
theorem scanPred_eq (r : StoredWalletConnection) :
    (fun x : Wallet => strictEqStr x.name ((encodeStored r).getField "walletName"))
      = (fun x : Wallet => strictEqStr x.name (some (.jstr r.walletName))) := by
  funext x; rw [getField_walletName]

/-- `strictEqStr` against a string value decides string equality. -/
theorem strictEqStr_jstr (s t : String) :
    strictEqStr s (some (.jstr t)) = decide (s = t) := rfl

/-- `strictEqNum` against a number value decides integer equality. -/
theorem strictEqNum_jnum (n m : Int) :
    strictEqNum n (some (.jnum m)) = decide (n = m) := rfl

/-! ### Concrete fixtures used by the witnesses -/

def accA : Account := ⟨"0xaaa", "pk-a"⟩

def accB : Account := ⟨"0xbbb", "pk-b"⟩

def recStale : StoredWalletConnection := ⟨"Wallet X", "0xaaa", 2⟩

def recX : StoredWalletConnection := ⟨"Wallet X", "0xaaa", 0⟩

def wStale : Wallet := ⟨"Wallet X", .resolves (some [accA]), .rejects, true⟩

def wX1 : Wallet := ⟨"Wallet X", .rejects, .rejects, true⟩

def wX2 : Wallet := ⟨"Wallet X", .resolves (some [accA]), .rejects, true⟩

def wY : Wallet := ⟨"Wallet Y", .rejects, .rejects, true⟩

def wConn : Wallet := ⟨"Wallet Z", .rejects, .resolves (some [accA, accB]), true⟩

def wFail : Wallet := ⟨"Wallet Z", .rejects, .rejects, false⟩

def wEmpty : Wallet := ⟨"Wallet Z", .rejects, .resolves (some []), true⟩

def stQ : Option SlotText := storedSlot ⟨"Wallet Q", "0xqqq", 1⟩

/-! ### Claims -/

/-- Claim C1: for every stored connection record whose `accountIndex` is out
of range for the matched wallet's live account list (list length ≤
`accountIndex`), `autoConnectWallet`, after its silent connect call resolves,
clears the store and returns `false`, and never reads an account at an
out-of-range index (no account-array read happens at all: `accountReads`
is empty). -/
theorem autoConnect_outOfRange_clears (ws : List Wallet)
    (r : StoredWalletConnection) (w : Wallet) (accs : List Account)
    (hfind : ws.find? (fun x => strictEqStr x.name (some (.jstr r.walletName))) = some w)
    (hconn : w.silentConnect = .resolves (some accs))
    (hrange : (accs.length : Int) ≤ r.accountIndex) :
    (autoConnectWallet ws (storedSlot r)).success = false ∧
    (autoConnectWallet ws (storedSlot r)).store = none ∧
    (autoConnectWallet ws (storedSlot r)).accountReads = [] := by
  unfold autoConnectWallet
  simp only [loadWalletConnection_storedSlot, truthy_encodeStored,
    getField_accountIndex, Bool.not_true]
  rw [scanPred_eq, hfind]
  simp only [hconn]
  rw [if_neg (not_lt.mpr hrange)]
  exact ⟨rfl, rfl, rfl⟩

/-- Witness for C1: record with `accountIndex = 2`, matched wallet whose
account list after the silent connect has length 1. -/
theorem autoConnect_outOfRange_clears_witness :
    ([wStale].find? (fun x => strictEqStr x.name (some (.jstr recStale.walletName)))
        = some wStale) ∧
    (wStale.silentConnect = .resolves (some [accA])) ∧
    ((List.length [accA] : Int) ≤ recStale.accountIndex) ∧
    ((autoConnectWallet [wStale] (storedSlot recStale)).success = false ∧
     (autoConnectWallet [wStale] (storedSlot recStale)).store = none ∧
     (autoConnectWallet [wStale] (storedSlot recStale)).accountReads = []) :=
  ⟨rfl, rfl, by decide,
   autoConnect_outOfRange_clears [wStale] recStale wStale [accA] rfl rfl (by decide)⟩

/-- Claim C2: the claim states that `loadWalletConnection` returns `null` for
a structurally invalid parsed record.  The source casts `JSON.parse`'s result
to `StoredWalletConnection` without any structural check, so a parsed but
invalid value — here the empty object, stored text `"\x7b\x7d"` — is returned
non-null, contradicting the claim (and the function's own doc comment, which
promises `null` for invalid stored data).  The empty and unparsable cases do
return `null`, as does parsed JSON `null` (whose field dereference throws and
is caught). -/
theorem load_returns_invalid_record :
    loadWalletConnection (some (.json (.jobj []))) = some (.jobj []) ∧
    decodeStored (.jobj []) = none ∧
    loadWalletConnection none = none ∧
    loadWalletConnection (some .malformed) = none ∧
    loadWalletConnection (some (.json .jnull)) = none :=
  ⟨rfl, rfl, rfl, rfl, rfl⟩

/-- Claim C3: for every stored record whose `walletName` matches no wallet
name in the available-wallet list, `autoConnectWallet` clears the store and
returns `false` without invoking any wallet's connect capability; and when a
match exists, the first handle (in list order) whose name equals the stored
identifier is the one chosen: its connect capability (and no other handle's)
is the one invoked, and the whole run is equal to a run in which that handle
is the only available wallet. -/
theorem autoConnect_walletScan (ws : List Wallet) (r : StoredWalletConnection) :
    ((∀ w ∈ ws, w.name ≠ r.walletName) →
      (autoConnectWallet ws (storedSlot r)).success = false ∧
      (autoConnectWallet ws (storedSlot r)).store = none ∧
      (autoConnectWallet ws (storedSlot r)).connectCalls = []) ∧
    (∀ (i : Nat) (hi : i < ws.length),
      (∀ j (hj : j < i), (ws.get ⟨j, Nat.lt_trans hj hi⟩).name ≠ r.walletName) →
      (ws.get ⟨i, hi⟩).name = r.walletName →
      (autoConnectWallet ws (storedSlot r)).connectCalls = [ws.get ⟨i, hi⟩] ∧
      autoConnectWallet ws (storedSlot r)
        = autoConnectWallet [ws.get ⟨i, hi⟩] (storedSlot r)) := by
  constructor
  · intro hnone
    have hf : ws.find? (fun x => strictEqStr x.name (some (.jstr r.walletName))) = none := by
      rw [List.find?_eq_none]
      intro x hx
      rw [strictEqStr_jstr]
      simpa using hnone x hx
    unfold autoConnectWallet
    simp only [loadWalletConnection_storedSlot, truthy_encodeStored, Bool.not_true]
    rw [scanPred_eq, hf]
    exact ⟨rfl, rfl, rfl⟩
  · intro i hi hfirst hname
    have hp : (fun x : Wallet => strictEqStr x.name (some (.jstr r.walletName)))
        (ws.get ⟨i, hi⟩) = true := by
      simp only [strictEqStr_jstr, decide_eq_true_eq]
      exact hname
    have hb : ∀ j (hj : j < i),
        (fun x : Wallet => strictEqStr x.name (some (.jstr r.walletName)))
          (ws.get ⟨j, Nat.lt_trans hj hi⟩) = false := by
      intro j hj
      simp only [strictEqStr_jstr, decide_eq_false_iff_not]
      exact hfirst j hj
    have hf := find_eq_of_first_match
      (fun x : Wallet => strictEqStr x.name (some (.jstr r.walletName)))
      ws i hi hb hp
    have key : ∀ w : Wallet,
        ws.find? (fun x => strictEqStr x.name (some (.jstr r.walletName)))
          = some w →
        (autoConnectWallet ws (storedSlot r)).connectCalls = [w] ∧
        autoConnectWallet ws (storedSlot r)
          = autoConnectWallet [w] (storedSlot r) := by
      intro w hfw
      have hpw : strictEqStr w.name (some (.jstr r.walletName)) = true := by
        have h0 := List.find?_some hfw
        exact h0
      have hf1 : List.find?
          (fun x => strictEqStr x.name (some (.jstr r.walletName))) [w]
          = some w := List.find?_cons_of_pos [] hpw
      constructor
      · unfold autoConnectWallet
        simp only [loadWalletConnection_storedSlot, truthy_encodeStored,
          getField_accountIndex, getField_accountAddress, Bool.not_true]
        rw [scanPred_eq, hfw]
        cases hsc : w.silentConnect with
        | rejects => simp [hsc]
        | resolves accountsAfter =>
          cases accountsAfter with
          | none => simp [hsc]
          | some accs =>
            by_cases hlt : (accs.length : Int) > r.accountIndex
            · cases hga : listGetInt accs r.accountIndex with
              | none => simp [hsc, hlt, hga]
              | some account =>
                by_cases haddr :
                    strictEqStr account.address (some (.jstr r.accountAddress)) = true
                · simp [hsc, hlt, hga, haddr]
                · simp [hsc, hlt, hga, haddr]
            · simp [hsc, hlt]
      · unfold autoConnectWallet
        simp only [loadWalletConnection_storedSlot, truthy_encodeStored,
          Bool.not_true]
        rw [scanPred_eq, hfw, hf1]
    exact key (ws.get ⟨i, hi⟩) hf

/-- Witness for C3: a record naming "Wallet X" against a list containing only
"Wallet Y" (no connect call, store cleared), and against a list holding two
distinct handles both named "Wallet X" at positions 1 and 2: the handle at
position 1 is the one invoked, and the run equals a run against it alone. -/
theorem autoConnect_walletScan_witness :
    ((autoConnectWallet [wY] (storedSlot recX)).success = false ∧
     (autoConnectWallet [wY] (storedSlot recX)).store = none ∧
     (autoConnectWallet [wY] (storedSlot recX)).connectCalls = []) ∧
    wX1 ≠ wX2 ∧
    (autoConnectWallet [wY, wX1, wX2] (storedSlot recX)).connectCalls = [wX1] ∧
    autoConnectWallet [wY, wX1, wX2] (storedSlot recX)
      = autoConnectWallet [wX1] (storedSlot recX) :=
  ⟨(autoConnect_walletScan [wY] recX).1 (by decide),
   by decide,
   ((autoConnect_walletScan [wY, wX1, wX2] recX).2 1 (by decide)
     (by decide) (by decide)).1,
   ((autoConnect_walletScan [wY, wX1, wX2] recX).2 1 (by decide)
     (by decide) (by decide)).2⟩

/-- Claim C4: for every stored record with a matching available wallet, if
the silent connect invocation rejects, `autoConnectWallet` catches the
failure, clears the store, and returns `false` (the embedding is a total
function, so the failure indeed does not propagate). -/
theorem autoConnect_silentRejected_clears (ws : List Wallet)
    (r : StoredWalletConnection) (w : Wallet)
    (hfind : ws.find? (fun x => strictEqStr x.name (some (.jstr r.walletName))) = some w)
    (hconn : w.silentConnect = .rejects) :
    (autoConnectWallet ws (storedSlot r)).success = false ∧
    (autoConnectWallet ws (storedSlot r)).store = none := by
  unfold autoConnectWallet
  simp only [loadWalletConnection_storedSlot, truthy_encodeStored, Bool.not_true]
  rw [scanPred_eq, hfind]
  simp only [hconn]
  exact ⟨rfl, rfl⟩

/-- Witness for C4: matching wallet "Wallet X" whose silent connect rejects. -/
theorem autoConnect_silentRejected_clears_witness :
    ([wX1].find? (fun x => strictEqStr x.name (some (.jstr recX.walletName)))
        = some wX1) ∧
    (wX1.silentConnect = .rejects) ∧
    ((autoConnectWallet [wX1] (storedSlot recX)).success = false ∧
     (autoConnectWallet [wX1] (storedSlot recX)).store = none) :=
  ⟨rfl, rfl, autoConnect_silentRejected_clears [wX1] recX wX1 rfl rfl⟩

/-- Claim C5: after every successful user-initiated connect on a wallet whose
account list is non-empty, the store contains exactly the record with the
wallet's name, the address of its first account, and index 0, regardless of
any previously stored record. -/
theorem connect_savesFirstAccount (w : Wallet) (st : Option SlotText)
    (a : Account) (tl : List Account)
    (hconn : w.interactiveConnect = .resolves (some (a :: tl))) :
    connectButtonHandler w st = storedSlot ⟨w.name, a.address, 0⟩ := by
  unfold connectButtonHandler
  rw [hconn]
  rfl

/-- Witness for C5: a successful connect exposing two accounts, with a prior
record for a different wallet in the store. -/
theorem connect_savesFirstAccount_witness :
    (wConn.interactiveConnect = .resolves (some [accA, accB])) ∧
    connectButtonHandler wConn stQ = storedSlot ⟨wConn.name, accA.address, 0⟩ :=
  ⟨rfl, connect_savesFirstAccount wConn stQ accA [accB] rfl⟩

/-- Claim C6: a failed user-initiated connect performs no store write, and a
failed user-initiated disconnect does not clear the store: in both cases the
persisted slot is left unchanged. -/
theorem failed_actions_preserve_store (w : Wallet) (st : Option SlotText) :
    (w.interactiveConnect = .rejects → connectButtonHandler w st = st) ∧
    (w.disconnectSucceeds = false → disconnectButtonHandler w st = st) := by
  constructor
  · intro h
    unfold connectButtonHandler
    rw [h]
  · intro h
    unfold disconnectButtonHandler
    rw [h]
    rfl

/-- Witness for C6: a wallet whose interactive connect rejects and whose
disconnect fails, with a non-empty store. -/
theorem failed_actions_preserve_store_witness :
    (wFail.interactiveConnect = .rejects) ∧
    (wFail.disconnectSucceeds = false) ∧
    connectButtonHandler wFail stQ = stQ ∧
    disconnectButtonHandler wFail stQ = stQ :=
  ⟨rfl, rfl, (failed_actions_preserve_store wFail stQ).1 rfl,
   (failed_actions_preserve_store wFail stQ).2 rfl⟩

/-- Claim C7: when rendering the account list of the wallet named
`walletName`, the option at position `index` is marked selected iff either
the slot holds a saved record whose `walletName` equals the rendered wallet's
name and whose `accountIndex` equals that index, or the index is 0 and no
stored connection loads at all (empty or unparsable slot), for any wallet. -/
theorem accountOption_selected_iff (walletName : String) (index : Nat) :
    (∀ r : StoredWalletConnection,
      (accountOptionSelected walletName index (storedSlot r) = true ↔
        (walletName = r.walletName ∧ (index : Int) = r.accountIndex))) ∧
    (accountOptionSelected walletName index none = true ↔ index = 0) ∧
    (accountOptionSelected walletName index (some .malformed) = true ↔ index = 0) := by
  refine ⟨fun r => ?_, ?_, ?_⟩
  · unfold accountOptionSelected
    simp only [loadWalletConnection_storedSlot, truthy_encodeStored,
      getField_walletName, getField_accountIndex, strictEqStr_jstr,
      strictEqNum_jnum]
    by_cases h1 : walletName = r.walletName
    · by_cases h2 : (index : Int) = r.accountIndex
      · simp [h1, h2]
      · simp [h1, h2]
    · simp [h1]
  · unfold accountOptionSelected
    simp [loadWalletConnection]
  · unfold accountOptionSelected
    simp [loadWalletConnection]

/-- Claim C8: saving a valid record and then loading returns a record equal
to the saved one: the load yields exactly the saved record's JSON object,
which decodes back to the record itself. -/
theorem save_load_roundTrip (R : StoredWalletConnection) (st : Option SlotText)
    (_hvalid : 0 ≤ R.accountIndex) :
    loadWalletConnection
        (saveWalletConnection R.walletName R.accountAddress R.accountIndex st)
      = some (encodeStored R) ∧
    decodeStored (encodeStored R) = some R :=
  ⟨rfl, rfl⟩

/-- Witness for C8: round trip of a concrete valid record through an
initially empty slot. -/
theorem save_load_roundTrip_witness :
    (0 ≤ (StoredWalletConnection.mk "Sui Wallet" "0xabc" 0).accountIndex) ∧
    (loadWalletConnection (saveWalletConnection "Sui Wallet" "0xabc" 0 none)
        = some (encodeStored ⟨"Sui Wallet", "0xabc", 0⟩) ∧
     decodeStored (encodeStored ⟨"Sui Wallet", "0xabc", 0⟩)
        = some ⟨"Sui Wallet", "0xabc", 0⟩) :=
  ⟨by decide, save_load_roundTrip ⟨"Sui Wallet", "0xabc", 0⟩ none (by decide)⟩

/-- Claim C9: if a user-initiated connect resolves but the wallet's account
list is then empty or undefined, no store write occurs: the slot is left
exactly as it was. -/
theorem connect_withoutAccounts_noWrite (w : Wallet) (st : Option SlotText)
    (h : w.interactiveConnect = .resolves none ∨
         w.interactiveConnect = .resolves (some [])) :
    connectButtonHandler w st = st := by
  rcases h with h | h <;> (unfold connectButtonHandler; rw [h])

/-- Witness for C9: a connect that resolves with an empty account list, with
a prior record in the store. -/
theorem connect_withoutAccounts_noWrite_witness :
    (wEmpty.interactiveConnect = .resolves (some [])) ∧
    connectButtonHandler wEmpty stQ = stQ :=
  ⟨rfl, connect_withoutAccounts_noWrite wEmpty stQ (Or.inr rfl)⟩

/-- Claim C10: `saveWalletConnection` performs no validation: any inputs,
including a negative `accountIndex` and empty strings, are written to the
slot, and a subsequent `loadWalletConnection` returns exactly those values
(the store does not enforce the invariant `accountIndex ≥ 0`). -/
theorem save_performs_no_validation (name addr : String) (idx : Int)
    (st : Option SlotText) :
    loadWalletConnection (saveWalletConnection name addr idx st)
      = some (encodeStored ⟨name, addr, idx⟩) ∧
    decodeStored (encodeStored ⟨name, addr, idx⟩) = some ⟨name, addr, idx⟩ :=
  ⟨rfl, rfl⟩

end WalletOps
